import Mathlib

/-!
Verification of the phpMyAdmin SQL-backup downloader.

The development shallowly embeds `phpmyadmin_sql_backup.py`.  The HTML
documents the script inspects via XPath are abstracted into a `Doc`
structure holding, for each XPath query the script performs, exactly the
data that query would return (forms with their `id`/`name`/`action`
attributes and their hidden inputs, the `href` attributes of anchors, the
`href` attributes of anchors inside the `topmenu` element, the option
values of the `db_select[]` multi-select).  HTTP traffic is abstracted
into an environment `Env` supplying the response to each of the four
requests the script makes; the requests actually issued are collected in
a trace.  Library calls that are external to the repository
(`urllib.parse.urljoin`, `datetime.strftime`) are oracle fields of `Env`.
Python dictionaries are modelled as insertion-ordered association lists
with the update-in-place semantics of dict assignment.
-/

namespace PmaBackup

/-- A value stored in a form-data dictionary: either a plain string or a
list of strings (as for `db_select[]`). -/
inductive FormValue where
  | one (s : String)
  | many (l : List String)
deriving DecidableEq, Repr

/-- A Python dict with string keys, modelled as an insertion-ordered
association list with unique keys. -/
abbrev FormData := List (String × FormValue)

/-- Python dict assignment `d[k] = v`: replace in place when the key is
present, append otherwise. -/
def dictSet (d : FormData) (k : String) (v : FormValue) : FormData :=
  if d.any (fun kv => kv.1 == k) then
    d.map (fun kv => if kv.1 == k then (k, v) else kv)
  else
    d ++ [(k, v)]

/-- Python dict lookup `d.get(k)`. -/
def dictGet (d : FormData) (k : String) : Option FormValue :=
  (d.find? (fun kv => kv.1 == k)).map (fun kv => kv.2)

/-- An `<input type="hidden">` element: its `name` and `value` attributes
(absent attributes are `none`). -/
structure Input where
  name : Option String
  value : Option String
deriving DecidableEq, Repr

/-- A `<form>` element: its `id`, `name` and `action` attributes and the
hidden inputs contained in it, in document order. -/
structure Form where
  id : Option String
  name : Option String
  action : Option String
  hiddenInputs : List Input
deriving DecidableEq, Repr

/-- The abstraction of a parsed HTML document: exactly the data returned
by the XPath queries the script performs. -/
structure Doc where
  forms : List Form
  hrefs : List String
  topmenuHrefs : List String
  dbSelectOptions : List String
deriving DecidableEq, Repr

/-- Python `sub in s` on strings: substring containment. -/
def strContains (s sub : String) : Bool :=
  decide (sub.data <:+: s.data)

/-- `itertools.product` on two lists. -/
def listProd (xs : List α) (ys : List β) : List (α × β) :=
  xs.flatMap (fun x => ys.map (fun y => (x, y)))

/-- The fixed post-login navigation markers of `is_login_successful`. -/
def target_substrings : List String :=
  ["frame_content", "server_export.php", "index.php?route=/server/export"]

/-- `is_login_successful(tree)`: true iff some `href` of the document
contains one of the three markers (cross product of markers and hrefs). -/
def is_login_successful (tree : Doc) : Bool :=
  let hrefs := tree.hrefs
  (listProd target_substrings hrefs).any (fun sh => strContains sh.2 sh.1)

/-- The forms matched by the XPath `//form[@id='login_form']`. -/
def loginForms (d : Doc) : List Form :=
  d.forms.filter (fun f => f.id == some "login_form")

/-- `//form[@id='login_form']/@action`. -/
def loginFormActions (d : Doc) : List String :=
  (loginForms d).filterMap (fun f => f.action)

/-- `//form[@id='login_form']//input[@type='hidden']`. -/
def loginHiddenInputs (d : Doc) : List Input :=
  (loginForms d).flatMap (fun f => f.hiddenInputs)

/-- The forms matched by the XPath `//form[@name='dump']`. -/
def dumpForms (d : Doc) : List Form :=
  d.forms.filter (fun f => f.name == some "dump")

/-- `//form[@name='dump']/@action`. -/
def dumpFormActions (d : Doc) : List String :=
  (dumpForms d).filterMap (fun f => f.action)

/-- `//form[@name='dump']//input[@type='hidden']`. -/
def dumpHiddenInputs (d : Doc) : List Input :=
  (dumpForms d).flatMap (fun f => f.hiddenInputs)

/-- The loop body `name = i.get("name"); value = i.get("value", "");
if name: form_data[name] = value` applied over a list of hidden inputs:
the (name, value) pairs that actually get assigned, in order.  A missing
or empty `name` is skipped; a missing `value` defaults to `""`. -/
def hiddenPairs (inputs : List Input) : List (String × String) :=
  inputs.filterMap (fun i =>
    match i.name with
    | some nm => if nm == "" then none else some (nm, i.value.getD "")
    | none => none)

/-- Fold dict assignments of hidden-input pairs over a starting dict. -/
def applyHidden (base : FormData) (pairs : List (String × String)) : FormData :=
  pairs.foldl (fun d p => dictSet d p.1 (FormValue.one p.2)) base

/-- The login form data: `{"pma_username": user, "pma_password": password}`
updated with the hidden inputs of the login form. -/
def loginFormData (user password : String) (hidden : List Input) : FormData :=
  applyHidden [("pma_username", FormValue.one user), ("pma_password", FormValue.one password)]
    (hiddenPairs hidden)

/-- The export form data: the fixed parameters
`db_select[]`, `compression`, `what`, `filename_template`,
`sql_structure_or_data` updated with the hidden inputs of the dump form. -/
def exportFormData (dbs_to_dump : List String) (compression : String)
    (hidden : List Input) : FormData :=
  applyHidden
    [("db_select[]", FormValue.many dbs_to_dump),
     ("compression", FormValue.one compression),
     ("what", FormValue.one "sql"),
     ("filename_template", FormValue.one "@SERVER@"),
     ("sql_structure_or_data", FormValue.one "structure_and_data")]
    (hiddenPairs hidden)

/-- The fixed parameter names of the export form data. -/
def fixedExportKeys : List String :=
  ["db_select[]", "compression", "what", "filename_template", "sql_structure_or_data"]

/-! ### Paths and filenames -/

/-- Decimal rendering of a natural number, as Python `str(n)`. -/
def natDecimal (n : Nat) : String :=
  if n = 0 then "0" else String.mk (((Nat.digits 10 n).map Nat.digitChar).reverse)

/-- Index of the last occurrence of a character in a list. -/
def lastIndexOf (c : Char) : List Char → Option Nat
  | [] => none
  | x :: xs =>
    match lastIndexOf c xs with
    | some i => some (i + 1)
    | none => if x == c then some 0 else none

/-- `os.path.splitext` (POSIX), on the character list of the path: the
extension starts at the last dot, provided it comes after the last path
separator and the basename is not made of dots only up to that point. -/
def splitextData (l : List Char) : List Char × List Char :=
  let sepStart : Nat :=
    match lastIndexOf '/' l with
    | some i => i + 1
    | none => 0
  match lastIndexOf '.' l with
  | none => (l, [])
  | some dotIdx =>
    if sepStart ≤ dotIdx then
      if ((l.drop sepStart).take (dotIdx - sepStart)).any (fun ch => ch != '.') then
        (l.take dotIdx, l.drop dotIdx)
      else (l, [])
    else (l, [])

/-- `os.path.splitext` on strings. -/
def splitext (s : String) : String × String :=
  let p := splitextData s.data
  (String.mk p.1, String.mk p.2)

/-- Python `s.startswith(pre)`. -/
def strStartsWith (s pre : String) : Bool :=
  decide (pre.data <+: s.data)

/-- Python `s.endswith(suf)`. -/
def strEndsWith (s suf : String) : Bool :=
  decide (suf.data <:+ s.data)

/-- `os.path.join` (POSIX) restricted to two components. -/
def pathJoin (a b : String) : String :=
  if strStartsWith b "/" then b
  else if a == "" || strEndsWith a "/" then a ++ b
  else a ++ "/" ++ b

/-- `os.path.isfile` against the modelled (finite) filesystem. -/
def isfile (files : List String) (p : String) : Bool :=
  files.contains p

/-- The alternative filename `f'{basename}_({n}){ext}'` tried by the
collision loop. -/
def altName (b e : String) (n : Nat) : String :=
  b ++ "_(" ++ natDecimal n ++ ")" ++ e

/-- Length of the longest path in the modelled filesystem. -/
def maxLen (files : List String) : Nat :=
  files.foldr (fun s m => max s.length m) 0

/-- Fuel sufficient for the collision loop to reach a free name: a name
whose decimal index has more digits than any existing path is free. -/
def collisionFuel (files : List String) : Nat :=
  10 ^ (maxLen files + 1)

/-- The `while True` collision loop: try `n`, `n+1`, … until a name is
free.  The loop of the script is partial; it is given fuel that provably
suffices over the finite modelled filesystem. -/
def collisionLoop (files : List String) (b e : String) : Nat → Nat → String
  | 0, n => altName b e n
  | fuel + 1, n =>
    if isfile files (altName b e n) then collisionLoop files b e fuel (n + 1)
    else altName b e n

/-- The collision-resolution block entered when the output path exists
and overwriting is off. -/
def resolveCollision (files : List String) (out : String) : String :=
  let be := splitext out
  collisionLoop files be.1 be.2 (collisionFuel files) 1

/-- The output path after the optional collision-resolution block. -/
def resolveOutputPath (files : List String) (overwrite : Bool) (out : String) : String :=
  if isfile files out && !overwrite then resolveCollision files out else out

/-! ### The Content-Disposition regular expression

`CONTENT_DISPOSITION_FILENAME_RE = re.compile(r'^.*filename="(?P<filename>[^"]+)".*$')`
used with `.match`.  `.` does not match a newline; `$` also matches just
before a final newline; the leading greedy `.*` selects the rightmost
position at which the rest of the pattern matches. -/

/-- The literal part `filename="` of the pattern. -/
def cdKey : List Char := "filename=\"".data

/-- Whether `.*$` matches a character list: no newline at all, or a
single newline as the last character. -/
def dotStarEnd (post : List Char) : Bool :=
  post.all (fun c => c != '\n') ||
    (match post.getLast? with
     | some c => c == '\n' && post.dropLast.all (fun ch => ch != '\n')
     | none => false)

/-- Match `([^"]+)".*$` at the start of `rest` (the part after the
literal `filename="`), returning the group: the greedy nonempty run of
non-quote characters must be followed by a closing quote, and `.*$`
must match the remainder. -/
def matchFrom (rest : List Char) : Option (List Char) :=
  match rest.takeWhile (fun c => c != '"'), rest.dropWhile (fun c => c != '"') with
  | c :: cs, '"' :: post => if dotStarEnd post then some (c :: cs) else none
  | _, _ => none

/-- Match `filename="([^"]+)".*$` at the start of `l`, returning the
group. -/
def matchTail (l : List Char) : Option (List Char) :=
  if cdKey <+: l then matchFrom (l.drop cdKey.length) else none

/-- Scan for the rightmost position at which `matchTail` succeeds, never
crossing a newline (the leading `.*` of the anchored pattern cannot). -/
def cdScan : List Char → Option (List Char)
  | [] => none
  | c :: rest =>
    if c = '\n' then matchTail (c :: rest)
    else
      match cdScan rest with
      | some r => some r
      | none => matchTail (c :: rest)

/-- `CONTENT_DISPOSITION_FILENAME_RE.match(s)`, returning the `filename`
group on success. -/
def reMatchFilename (s : String) : Option String :=
  (cdScan s.data).map String.mk

/-! ### The workflow -/

/-- `DEFAULT_PREFIX_FORMAT`. -/
def DEFAULT_PREFIX_FORMAT : String := "%Y-%m-%d--%H-%M-%S-UTC_"

/-- `prefix_format or DEFAULT_PREFIX_FORMAT` (Python `or`: `None` and the
empty string are falsy). -/
def prefixFormatOrDefault (pf : Option String) : String :=
  match pf with
  | none => DEFAULT_PREFIX_FORMAT
  | some s => if s == "" then DEFAULT_PREFIX_FORMAT else s

/-- Python `s.split(',')` on the character list: split at every comma,
keeping empty segments. -/
def splitOnComma : List Char → List (List Char)
  | [] => [[]]
  | c :: rest =>
    let r := splitOnComma rest
    if c == ',' then [] :: r
    else
      match r with
      | [] => [[c]]
      | h :: t => (c :: h) :: t

/-- `exclude_dbs.split(',') if exclude_dbs else []`. -/
def excludeList (e : Option String) : List String :=
  match e with
  | none => []
  | some s => if s == "" then [] else (splitOnComma s.data).map String.mk

/-- The export-URL lookup: anchors under `topmenu` whose `href` contains
`server_export.php`, falling back to the route-style marker. -/
def exportUrlCandidates (d : Doc) : List String :=
  let c1 := d.topmenuHrefs.filter (fun h => strContains h "server_export.php")
  if c1.isEmpty then
    d.topmenuHrefs.filter (fun h => strContains h "index.php?route=/server/export")
  else c1

/-- `[db_name for db_name in dbs_available if db_name not in exclude_dbs]`. -/
def dbsToDump (d : Doc) (excl : List String) : List String :=
  d.dbSelectOptions.filter (fun db => !(excl.contains db))

/-- The warning printed when there is no database to dump. -/
def noDbWarning (dbs_available : List String) : String :=
  "Warning: no databases to dump (databases available: \"" ++
    String.intercalate ", " dbs_available ++ "\")"

/-- The warning printed when the output file already exists. -/
def existsWarning (out_filename : String) : String :=
  "File " ++ out_filename ++ " already exists, to overwrite it use --overwrite-existing"

/-- A response to a page request: HTTP status and parsed document. -/
structure PageResponse where
  status : Nat
  doc : Doc
deriving DecidableEq, Repr

/-- The response to the final streamed POST: HTTP status and the
`Content-Disposition` header, if present. -/
structure FileResponse where
  status : Nat
  contentDisposition : Option String
deriving DecidableEq, Repr

/-- An HTTP request issued by the session, as observed on the wire:
method, URL, form data, the basic-auth credentials attached by the
session (if any), streaming flag and timeout. -/
structure Request where
  method : String
  url : String
  data : FormData
  auth : Option String
  stream : Bool
  timeout : Nat
deriving DecidableEq, Repr

/-- A raised exception: `ValueError(msg)`, or the `IndexError` raised by
indexing an empty XPath result. -/
inductive RunError where
  | valueError (msg : String)
  | indexError
deriving DecidableEq, Repr

deriving instance DecidableEq for Except

/-- The outcome of one run: the returned path or the raised error, the
trace of HTTP requests issued, and the lines printed to stderr. -/
structure RunResult where
  result : Except RunError String
  requests : List Request
  stderr : List String
deriving DecidableEq, Repr

/-- The environment of one run: the four responses the server gives, the
existing files of the output filesystem, and oracles for the library
functions `datetime.utcnow().strftime` and `urllib.parse.urljoin`. -/
structure Env where
  loginPage : PageResponse
  loginPost : PageResponse
  exportPage : PageResponse
  filePost : FileResponse
  files : List String
  strftime : String → String
  urljoin : String → String → String

/-- The arguments of `download_sql_backup`. -/
structure Args where
  url : String
  user : String
  password : String
  dry_run : Bool
  overwrite_existing : Bool
  prepend_date : Bool
  basename : Option String
  output_directory : String
  exclude_dbs : Option String
  compression : String
  prefix_format : Option String
  timeout : Nat
  http_auth : Option String
  server_name : Option String

/-- A `session.get(url, timeout=timeout)` call as issued on the wire;
the session never has basic-auth credentials configured (`http_auth` is
accepted by the script but never used). -/
def getRequest (u : String) (t : Nat) : Request :=
  { method := "GET", url := u, data := [], auth := none, stream := false,
    timeout := t }

/-- A `session.post(url, data=..., timeout=timeout, stream=...)` call as
issued on the wire; likewise with no basic-auth credentials. -/
def postRequest (u : String) (d : FormData) (strm : Bool) (t : Nat) : Request :=
  { method := "POST", url := u, data := d, auth := none, stream := strm,
    timeout := t }

/-- The warning lines printed while determining the databases to dump:
one warning when the selection is empty. -/
def dumpWarnings (env : Env) (a : Args) : List String :=
  if (dbsToDump env.exportPage.doc (excludeList a.exclude_dbs)).isEmpty then
    [noDbWarning env.exportPage.doc.dbSelectOptions]
  else []

/-- The final filename before the output directory is joined on:
`content_filename if basename is None else basename + splitext(...)[1]`,
then the optional date prefix. -/
def resolvedFilename (env : Env) (a : Args) (content_filename : String) : String :=
  let filename :=
    match a.basename with
    | none => content_filename
    | some b => b ++ (splitext content_filename).2
  if a.prepend_date then
    env.strftime (prefixFormatOrDefault a.prefix_format) ++ filename
  else filename

/-- The part of `download_sql_backup` from the `# Determine databases to
dump` comment on: database selection (with its warning), dump-form
lookup (an `IndexError` when absent), export POST, `Content-Disposition`
parsing, filename resolution and collision handling.  `reqs` is the
trace of requests issued so far. -/
def exportStage (env : Env) (a : Args) (reqs : List Request) : RunResult :=
  let export_tree := env.exportPage.doc
  let dbs_to_dump := dbsToDump export_tree (excludeList a.exclude_dbs)
  let warns := dumpWarnings env a
  match (dumpFormActions export_tree).head? with
  | none =>
    { result := Except.error RunError.indexError, requests := reqs, stderr := warns }
  | some dump_form_action =>
    let form_data2 := exportFormData dbs_to_dump a.compression
      (dumpHiddenInputs export_tree)
    let req4 := postRequest (env.urljoin a.url dump_form_action) form_data2 true
      a.timeout
    let content_disposition := env.filePost.contentDisposition.getD ""
    match reMatchFilename content_disposition with
    | none =>
      { result := Except.error (RunError.valueError
          ("Could not determine SQL backup filename from " ++ content_disposition)),
        requests := reqs ++ [req4], stderr := warns }
    | some content_filename =>
      let out_filename := pathJoin a.output_directory
        (resolvedFilename env a content_filename)
      let msg :=
        if isfile env.files out_filename && !a.overwrite_existing then
          [existsWarning out_filename]
        else []
      let out_final := resolveOutputPath env.files a.overwrite_existing out_filename
      { result := Except.ok out_final,
        requests := reqs ++ [req4], stderr := warns ++ msg }

/-- The embedding of `download_sql_backup`.  Mirrors the script line by
line: login-page GET (status-checked), login POST built from the login
form's action (falling back to the URL itself) and hidden fields
(status-checked, then checked via `is_login_successful`), export-link
lookup, export-page GET (not status-checked), then `exportStage` for the
rest.  Note that `http_auth` and `server_name` are accepted but never
read, exactly as in the script. -/
def download_sql_backup (env : Env) (a : Args) : RunResult :=
  let req1 := getRequest a.url a.timeout
  if env.loginPage.status != 200 then
    { result := Except.error (RunError.valueError "Failed to load the login page."),
      requests := [req1], stderr := [] }
  else
    let tree := env.loginPage.doc
    let form_action := (loginFormActions tree).head?.getD a.url
    let form_data := loginFormData a.user a.password (loginHiddenInputs tree)
    let req2 := postRequest (env.urljoin a.url form_action) form_data false a.timeout
    if env.loginPost.status != 200 then
      { result := Except.error
          (RunError.valueError "Could not log in. Please check your credentials."),
        requests := [req1, req2], stderr := [] }
    else if !is_login_successful env.loginPost.doc then
      { result := Except.error
          (RunError.valueError "Could not log in. Please check your credentials."),
        requests := [req1, req2], stderr := [] }
    else
      match (exportUrlCandidates env.loginPost.doc).head? with
      | none =>
        { result := Except.error (RunError.valueError "Could not find export URL."),
          requests := [req1, req2], stderr := [] }
      | some export_url =>
        let req3 := getRequest (env.urljoin a.url export_url) a.timeout
        exportStage env a [req1, req2, req3]

/-- The login POST request, as issued: action of the login form (the URL
itself when the form is absent), credentials plus hidden fields. -/
def loginPostRequest (env : Env) (a : Args) : Request :=
  postRequest (env.urljoin a.url ((loginFormActions env.loginPage.doc).head?.getD a.url))
    (loginFormData a.user a.password (loginHiddenInputs env.loginPage.doc)) false
    a.timeout

/-- The filename the specification prescribes under no-collision
conditions: date prefix, then the caller basename (or the suggested
stem), then the suggested extension.  Stated from the specification's
words, to be compared with `resolvedFilename` from the code. -/
def specResolvedFilename (datePfx : String) (basename : Option String)
    (suggested : String) : String :=
  datePfx ++
    (match basename with
     | some b => b
     | none => (splitext suggested).1) ++
    (splitext suggested).2

/-- The specification-side reading of "the header contains a quoted
`filename=` parameter matching the expected pattern": the header text
decomposes around `filename="` followed by a nonempty run of non-quote
characters and a closing quote. -/
def hasQuotedFilename (s : String) : Prop :=
  ∃ pre fn post : List Char,
    s.data = pre ++ (cdKey ++ (fn ++ '"' :: post)) ∧ fn ≠ [] ∧ ∀ c ∈ fn, c ≠ '"'

/-! ### Concrete fixture documents and environments -/

/-- A login page carrying the login form with one hidden token field. -/
def loginDoc : Doc :=
  { forms := [{ id := some "login_form", name := none,
                action := some "index.php?login",
                hiddenInputs := [{ name := some "token", value := some "t0k3n" }] }],
    hrefs := [], topmenuHrefs := [], dbSelectOptions := [] }

/-- A post-login page whose `topmenu` carries a route-style export link;
the link also makes `is_login_successful` true. -/
def postLoginDoc : Doc :=
  { forms := [],
    hrefs := ["index.php?route=/server/export&server=1"],
    topmenuHrefs := ["index.php?route=/server/export&server=1"],
    dbSelectOptions := [] }

/-- An export page with a `dump` form (no hidden inputs) and two
available databases. -/
def exportDoc : Doc :=
  { forms := [{ id := none, name := some "dump", action := some "export.php",
                hiddenInputs := [] }],
    hrefs := [], topmenuHrefs := [], dbSelectOptions := ["shop", "logs"] }

/-- An export page whose `dump` form hides an input named `db_select[]`. -/
def exportDocHidden : Doc :=
  { forms := [{ id := none, name := some "dump", action := some "export.php",
                hiddenInputs := [{ name := some "db_select[]", value := some "evil" }] }],
    hrefs := [], topmenuHrefs := [], dbSelectOptions := ["shop", "logs"] }

/-- A page with nothing on it. -/
def emptyDoc : Doc :=
  { forms := [], hrefs := [], topmenuHrefs := [], dbSelectOptions := [] }

/-- Default arguments for the concrete runs. -/
def baseArgs : Args :=
  { url := "http://pma/", user := "u", password := "p", dry_run := false,
    overwrite_existing := false, prepend_date := false, basename := none,
    output_directory := "out", exclude_dbs := none, compression := "none",
    prefix_format := none, timeout := 60, http_auth := none, server_name := none }

/-- Arguments with HTTP basic-auth credentials configured. -/
def argsHttpAuth : Args :=
  { baseArgs with http_auth := some "user:password" }

/-- Arguments with a basename override and the date prefix enabled. -/
def argsC8 : Args :=
  { baseArgs with basename := some "report", prepend_date := true }

/-- An environment in which every step succeeds and the server suggests
`shop.sql`. -/
def happyEnv : Env :=
  { loginPage := { status := 200, doc := loginDoc },
    loginPost := { status := 200, doc := postLoginDoc },
    exportPage := { status := 200, doc := exportDoc },
    filePost := { status := 200,
                  contentDisposition := some "attachment; filename=\"shop.sql\"" },
    files := [],
    strftime := fun _ => "TS_",
    urljoin := fun _ b => b }

/-- The happy environment with a login page that has no login form. -/
def envNoLoginForm : Env :=
  { happyEnv with loginPage := { status := 200, doc := emptyDoc } }

/-- The happy environment with a failing export-page GET. -/
def envExportDown : Env :=
  { happyEnv with exportPage := { status := 500, doc := exportDoc } }

/-- The happy environment with a failing login-page GET. -/
def envLoginDown : Env :=
  { happyEnv with loginPage := { status := 500, doc := loginDoc } }

/-- The happy environment with a hidden `db_select[]` input in the dump
form. -/
def envHiddenDbSelect : Env :=
  { happyEnv with exportPage := { status := 200, doc := exportDocHidden } }

/-! ### Dictionary lemmas -/

theorem find?_map_replace_self (d : FormData) (k : String) (v : FormValue) :
    (d.map (fun kv => if kv.1 == k then (k, v) else kv)).find?
        (fun kv => kv.1 == k) =
      (d.find? (fun kv => kv.1 == k)).map (fun _ => (k, v)) := by
  induction d with
  | nil => rfl
  | cons a d ih =>
    by_cases h1 : a.1 == k
    · simp [List.find?, h1, -List.find?_map]
    · simp [List.find?, h1, -List.find?_map]
      simpa using ih

theorem find?_map_replace_ne (d : FormData) (k k' : String) (v : FormValue)
    (h : k' ≠ k) :
    (d.map (fun kv => if kv.1 == k' then (k', v) else kv)).find?
        (fun kv => kv.1 == k) =
      d.find? (fun kv => kv.1 == k) := by
  induction d with
  | nil => rfl
  | cons a d ih =>
    have hkk : ((k' : String) == k) = false := beq_eq_false_iff_ne.mpr h
    by_cases h1 : a.1 == k'
    · have ha : (a.1 == k) = false := by
        rw [beq_eq_false_iff_ne]
        rw [beq_iff_eq] at h1
        rw [h1]; exact h
      simp [List.find?, h1, ha, hkk, -List.find?_map]
      simpa using ih
    · by_cases h2 : a.1 == k
      · simp [List.find?, h1, h2, -List.find?_map]
      · simp [List.find?, h1, h2, -List.find?_map]
        simpa using ih

theorem find?_eq_none_of_any_false (d : FormData) (k : String)
    (h : d.any (fun kv => kv.1 == k) = false) :
    d.find? (fun kv => kv.1 == k) = none := by
  rw [List.find?_eq_none]
  intro x hx hc
  rw [List.any_eq_false] at h
  exact h x hx hc

theorem dictGet_dictSet_self (d : FormData) (k : String) (v : FormValue) :
    dictGet (dictSet d k v) k = some v := by
  unfold dictGet dictSet
  split
  case isTrue h =>
    rw [find?_map_replace_self]
    have hsome : (d.find? (fun kv => kv.1 == k)).isSome := by
      rw [List.find?_isSome]
      rw [List.any_eq_true] at h
      obtain ⟨x, hx, hpx⟩ := h
      exact ⟨x, hx, hpx⟩
    obtain ⟨y, hy⟩ := Option.isSome_iff_exists.mp hsome
    rw [hy]
    rfl
  case isFalse h =>
    rw [List.find?_append,
      find?_eq_none_of_any_false d k (Bool.of_not_eq_true h)]
    simp [List.find?]

theorem dictGet_dictSet_ne (d : FormData) (k k' : String) (v : FormValue)
    (h : k' ≠ k) : dictGet (dictSet d k' v) k = dictGet d k := by
  unfold dictGet dictSet
  split
  · rw [find?_map_replace_ne d k k' v h]
  · rw [List.find?_append]
    have hkk : ((k' : String) == k) = false := beq_eq_false_iff_ne.mpr h
    have hsing : List.find? (fun kv => kv.1 == k) [(k', v)] = none := by
      simp [List.find?, hkk]
    rw [hsing]
    cases hfind : d.find? (fun kv => kv.1 == k) <;> simp [hfind]

theorem getLast?_cons_ne_nil {α : Type} (a : α) (l : List α) (h : l ≠ []) :
    (a :: l).getLast? = l.getLast? := by
  cases l with
  | nil => exact absurd rfl h
  | cons b m => exact List.getLast?_cons_cons

theorem dictGet_applyHidden_of_not_mem (pairs : List (String × String))
    (d : FormData) (k : String) (h : ∀ p ∈ pairs, ¬(p.1 = k)) :
    dictGet (applyHidden d pairs) k = dictGet d k := by
  induction pairs generalizing d with
  | nil => rfl
  | cons p ps ih =>
    unfold applyHidden at ih ⊢
    simp only [List.foldl_cons]
    rw [ih _ (fun q hq => h q (List.mem_cons_of_mem _ hq))]
    exact dictGet_dictSet_ne _ _ _ _ (h p (List.mem_cons_self _ _))

theorem dictGet_applyHidden_last (pairs : List (String × String))
    (d : FormData) (k : String)
    (h : (pairs.filter (fun p => p.1 == k)) ≠ []) :
    dictGet (applyHidden d pairs) k =
      ((pairs.filter (fun p => p.1 == k)).getLast?).map
        (fun p => FormValue.one p.2) := by
  induction pairs generalizing d with
  | nil => exact absurd rfl h
  | cons p ps ih =>
    unfold applyHidden at ih ⊢
    simp only [List.foldl_cons]
    by_cases hp : p.1 = k
    · by_cases hps : ps.filter (fun q => q.1 == k) = []
      · have hnm : ∀ q ∈ ps, ¬(q.1 = k) := by
          intro q hq hc
          have : q ∈ ps.filter (fun q => q.1 == k) :=
            List.mem_filter.mpr ⟨hq, by simpa using hc⟩
          rw [hps] at this
          exact absurd this (List.not_mem_nil q)
        have := dictGet_applyHidden_of_not_mem ps (dictSet d p.1 (FormValue.one p.2)) k hnm
        unfold applyHidden at this
        rw [this, hp, dictGet_dictSet_self]
        rw [List.filter_cons_of_pos (by simpa using hp), hps]
        simp
      · rw [ih _ hps]
        rw [List.filter_cons_of_pos (by simpa using hp)]
        rw [getLast?_cons_ne_nil _ _ hps]
    · rw [ih _ (by rwa [List.filter_cons_of_neg (by simpa using hp)] at h)]
      rw [List.filter_cons_of_neg (by simpa using hp)]

/-! ### Claim C7 -/

/-- Claim C7: for every HTML document, `is_login_successful` returns true
if and only if at least one `href` attribute among the document's anchor
links contains at least one of the three fixed post-login marker
substrings; in particular it returns false for a document with no links
or no matching links. -/
theorem claimC7_theorem (d : Doc) :
    is_login_successful d = true ↔
      ∃ h ∈ d.hrefs, ∃ m ∈ target_substrings, m.data <:+: h.data := by
  unfold is_login_successful listProd strContains
  simp only [List.any_eq_true, List.mem_flatMap, List.mem_map,
    decide_eq_true_eq]
  constructor
  · rintro ⟨sh, ⟨m, hm, h, hh, rfl⟩, hinf⟩
    exact ⟨h, hh, m, hm, hinf⟩
  · rintro ⟨h, hh, m, hm, hinf⟩
    exact ⟨(m, h), ⟨m, hm, h, hh, rfl⟩, hinf⟩

/-! ### Claim C10 -/

/-- Claim C10: when the export request body is built, a hidden input of
the export form whose name equals one of the fixed parameter names
(`db_select[]`, `compression`, `what`, `filename_template`,
`sql_structure_or_data`) overrides the merged-in fixed value: the value
submitted under that name is the (last) hidden-field value, whatever the
caller chose. -/
theorem claimC10_theorem (dbs : List String) (comp : String)
    (hidden : List Input) (k : String) (_hk : k ∈ fixedExportKeys)
    (hh : (hiddenPairs hidden).filter (fun p => p.1 == k) ≠ []) :
    dictGet (exportFormData dbs comp hidden) k =
      ((hiddenPairs hidden).filter (fun p => p.1 == k)).getLast?.map
        (fun p => FormValue.one p.2) := by
  unfold exportFormData
  exact dictGet_applyHidden_last _ _ _ hh

/-- Witness for C10: a hidden input named `compression` with value `zip`
overrides the caller-chosen compression `none`. -/
theorem claimC10_witness :
    dictGet (exportFormData ["a", "b"] "none"
        [{ name := some "compression", value := some "zip" }]) "compression" =
      some (FormValue.one "zip") := by
  have h := claimC10_theorem ["a", "b"] "none"
    [{ name := some "compression", value := some "zip" }] "compression"
    (by decide) (by decide)
  simpa using h

/-! ### Shape lemmas for the run -/

theorem run_loginPage_fail (env : Env) (a : Args)
    (h : env.loginPage.status ≠ 200) :
    download_sql_backup env a =
      { result := Except.error (RunError.valueError "Failed to load the login page."),
        requests := [getRequest a.url a.timeout], stderr := [] } := by
  have hb : (env.loginPage.status != 200) = true := by simpa [bne_iff_ne] using h
  unfold download_sql_backup
  simp [hb]

theorem run_loginPost_fail (env : Env) (a : Args)
    (h1 : env.loginPage.status = 200) (h2 : env.loginPost.status ≠ 200) :
    download_sql_backup env a =
      { result := Except.error
          (RunError.valueError "Could not log in. Please check your credentials."),
        requests := [getRequest a.url a.timeout, loginPostRequest env a],
        stderr := [] } := by
  have hb : (env.loginPost.status != 200) = true := by simpa [bne_iff_ne] using h2
  unfold download_sql_backup loginPostRequest
  simp [h1, hb]

theorem run_not_auth (env : Env) (a : Args)
    (h1 : env.loginPage.status = 200) (h2 : env.loginPost.status = 200)
    (h3 : is_login_successful env.loginPost.doc = false) :
    download_sql_backup env a =
      { result := Except.error
          (RunError.valueError "Could not log in. Please check your credentials."),
        requests := [getRequest a.url a.timeout, loginPostRequest env a],
        stderr := [] } := by
  unfold download_sql_backup loginPostRequest
  simp [h1, h2, h3]

theorem run_no_export_link (env : Env) (a : Args)
    (h1 : env.loginPage.status = 200) (h2 : env.loginPost.status = 200)
    (h3 : is_login_successful env.loginPost.doc = true)
    (h4 : (exportUrlCandidates env.loginPost.doc).head? = none) :
    download_sql_backup env a =
      { result := Except.error (RunError.valueError "Could not find export URL."),
        requests := [getRequest a.url a.timeout, loginPostRequest env a],
        stderr := [] } := by
  unfold download_sql_backup loginPostRequest
  simp [h1, h2, h3, h4]

theorem run_reach_export (env : Env) (a : Args)
    (h1 : env.loginPage.status = 200) (h2 : env.loginPost.status = 200)
    (h3 : is_login_successful env.loginPost.doc = true) (eu : String)
    (h4 : (exportUrlCandidates env.loginPost.doc).head? = some eu) :
    download_sql_backup env a =
      exportStage env a
        [getRequest a.url a.timeout, loginPostRequest env a,
         getRequest (env.urljoin a.url eu) a.timeout] := by
  unfold download_sql_backup loginPostRequest
  simp [h1, h2, h3, h4]

/-! ### Claim C9 -/

/-- Claim C9: the error message (and the whole returned result together
with the stderr output) produced by the run never depends on the
password: two runs differing only in the password produce the same
result and the same stderr lines.  In particular no error message
embeds the password value. -/
theorem exportStage_ignores_password_and_trace (env : Env) (a : Args)
    (p1 p2 : String) (reqs1 reqs2 : List Request) :
    (exportStage env { a with password := p1 } reqs1).result =
        (exportStage env { a with password := p2 } reqs2).result ∧
      (exportStage env { a with password := p1 } reqs1).stderr =
        (exportStage env { a with password := p2 } reqs2).stderr := by
  unfold exportStage
  cases hda : (dumpFormActions env.exportPage.doc).head? <;> simp only [hda]
  · constructor <;> trivial
  · cases hcd : reMatchFilename (env.filePost.contentDisposition.getD "") <;>
      simp only [hcd]
    · constructor <;> trivial
    · constructor <;> trivial

theorem claimC9_theorem (env : Env) (a : Args) (p1 p2 : String) :
    (download_sql_backup env { a with password := p1 }).result =
        (download_sql_backup env { a with password := p2 }).result ∧
      (download_sql_backup env { a with password := p1 }).stderr =
        (download_sql_backup env { a with password := p2 }).stderr := by
  by_cases h1 : env.loginPage.status = 200
  · by_cases h2 : env.loginPost.status = 200
    · cases h3 : is_login_successful env.loginPost.doc
      · rw [run_not_auth env _ h1 h2 h3, run_not_auth env _ h1 h2 h3]
        exact ⟨rfl, rfl⟩
      · cases h4 : (exportUrlCandidates env.loginPost.doc).head? with
        | none =>
          rw [run_no_export_link env _ h1 h2 h3 h4,
            run_no_export_link env _ h1 h2 h3 h4]
          exact ⟨rfl, rfl⟩
        | some eu =>
          rw [run_reach_export env _ h1 h2 h3 eu h4,
            run_reach_export env _ h1 h2 h3 eu h4]
          exact exportStage_ignores_password_and_trace env a p1 p2 _ _
    · rw [run_loginPost_fail env _ h1 h2, run_loginPost_fail env _ h1 h2]
      exact ⟨rfl, rfl⟩
  · rw [run_loginPage_fail env _ h1, run_loginPage_fail env _ h1]
    exact ⟨rfl, rfl⟩

/-! ### Claim C2 -/

/-- Claim C2: the `http_auth` option is never attached to any request:
every request issued by the run carries no basic-auth credentials,
whatever `http_auth` is set to.  (This refutes the claim that configured
basic-auth credentials are attached to every request: the script accepts
the option but never uses it.) -/
theorem exportStage_requests_auth (env : Env) (a : Args) (reqs : List Request)
    (hreqs : ∀ r ∈ reqs, r.auth = none) :
    ∀ r ∈ (exportStage env a reqs).requests, r.auth = none := by
  intro r hr
  unfold exportStage at hr
  cases hda : (dumpFormActions env.exportPage.doc).head? <;> simp only [hda] at hr
  · exact hreqs r hr
  · cases hcd : reMatchFilename (env.filePost.contentDisposition.getD "") <;>
      simp only [hcd] at hr
    all_goals
      rcases List.mem_append.mp hr with h | h
      · exact hreqs r h
      · rw [List.mem_singleton.mp h]
        rfl

theorem claimC2_theorem (env : Env) (a : Args) (r : Request)
    (hr : r ∈ (download_sql_backup env a).requests) : r.auth = none := by
  by_cases h1 : env.loginPage.status = 200
  · by_cases h2 : env.loginPost.status = 200
    · cases h3 : is_login_successful env.loginPost.doc
      · rw [run_not_auth env a h1 h2 h3] at hr
        rcases List.mem_cons.mp hr with rfl | hr
        · rfl
        · rw [List.mem_singleton.mp hr]
          rfl
      · cases h4 : (exportUrlCandidates env.loginPost.doc).head? with
        | none =>
          rw [run_no_export_link env a h1 h2 h3 h4] at hr
          rcases List.mem_cons.mp hr with rfl | hr
          · rfl
          · rw [List.mem_singleton.mp hr]
            rfl
        | some eu =>
          rw [run_reach_export env a h1 h2 h3 eu h4] at hr
          refine exportStage_requests_auth env a _ ?_ r hr
          intro q hq
          rcases List.mem_cons.mp hq with rfl | hq
          · rfl
          · rcases List.mem_cons.mp hq with rfl | hq
            · rfl
            · rw [List.mem_singleton.mp hq]
              rfl
    · rw [run_loginPost_fail env a h1 h2] at hr
      rcases List.mem_cons.mp hr with rfl | hr
      · rfl
      · rw [List.mem_singleton.mp hr]
        rfl
  · rw [run_loginPage_fail env a h1] at hr
    rcases List.mem_cons.mp hr with rfl | hr
    · rfl
    · exact absurd hr (List.not_mem_nil r)

/-- Witness for claim C2: in a run configured with
`http_auth="user:password"`, the first request still carries no
basic-auth credentials. -/
theorem claimC2_witness :
    (getRequest argsHttpAuth.url argsHttpAuth.timeout).auth = none :=
  claimC2_theorem happyEnv argsHttpAuth
    (getRequest argsHttpAuth.url argsHttpAuth.timeout) (by decide)

/-! ### Claim C1 -/

theorem exportStage_requests_extend (env : Env) (a : Args) (reqs : List Request) :
    ∃ tail, (exportStage env a reqs).requests = reqs ++ tail := by
  unfold exportStage
  cases hda : (dumpFormActions env.exportPage.doc).head? <;> simp only [hda]
  · exact ⟨[], by simp⟩
  · cases hcd : reMatchFilename (env.filePost.contentDisposition.getD "") <;>
      simp only [hcd]
    · exact ⟨_, rfl⟩
    · exact ⟨_, rfl⟩

/-- Counterexample to claim C1: a run whose login page is missing the
login form does not fail before any POST of the credentials — the second
request of the trace is the credentials POST (sent to the login URL
itself), and this run even completes successfully. -/
theorem claimC1_counterexample :
    loginForms envNoLoginForm.loginPage.doc = [] ∧
      (download_sql_backup envNoLoginForm baseArgs).requests[1]? =
        some (postRequest "http://pma/"
          [("pma_username", FormValue.one "u"), ("pma_password", FormValue.one "p")]
          false 60) ∧
      (download_sql_backup envNoLoginForm baseArgs).result =
        Except.ok "out/shop.sql" := by
  decide

/-- Claim C1 (amended): for every login-page document without the login
form, the run does not fail there; the form action falls back to the
login URL itself and the credentials are POSTed to it with no hidden
fields, as the second request of the trace. -/
theorem claimC1_theorem (env : Env) (a : Args)
    (h0 : env.loginPage.status = 200)
    (hnf : loginForms env.loginPage.doc = []) :
    (download_sql_backup env a).requests[1]? =
      some (postRequest (env.urljoin a.url a.url)
        [("pma_username", FormValue.one a.user),
         ("pma_password", FormValue.one a.password)]
        false a.timeout) := by
  have hact : loginFormActions env.loginPage.doc = [] := by
    unfold loginFormActions
    rw [hnf]
    rfl
  have hhid : loginHiddenInputs env.loginPage.doc = [] := by
    unfold loginHiddenInputs
    rw [hnf]
    rfl
  have hreq : loginPostRequest env a =
      postRequest (env.urljoin a.url a.url)
        [("pma_username", FormValue.one a.user),
         ("pma_password", FormValue.one a.password)]
        false a.timeout := by
    unfold loginPostRequest
    rw [hact, hhid]
    rfl
  by_cases h2 : env.loginPost.status = 200
  · cases h3 : is_login_successful env.loginPost.doc
    · rw [run_not_auth env a h0 h2 h3]
      simp [hreq]
    · cases h4 : (exportUrlCandidates env.loginPost.doc).head? with
      | none =>
        rw [run_no_export_link env a h0 h2 h3 h4]
        simp [hreq]
      | some eu =>
        rw [run_reach_export env a h0 h2 h3 eu h4]
        obtain ⟨tail, ht⟩ := exportStage_requests_extend env a
          [getRequest a.url a.timeout, loginPostRequest env a,
           getRequest (env.urljoin a.url eu) a.timeout]
        rw [ht]
        simp [hreq]
  · rw [run_loginPost_fail env a h0 h2]
    simp [hreq]

/-- Witness for the amended claim C1, at the concrete no-login-form
environment. -/
theorem claimC1_witness :
    (download_sql_backup envNoLoginForm baseArgs).requests[1]? =
      some (postRequest (envNoLoginForm.urljoin baseArgs.url baseArgs.url)
        [("pma_username", FormValue.one baseArgs.user),
         ("pma_password", FormValue.one baseArgs.password)]
        false baseArgs.timeout) :=
  claimC1_theorem envNoLoginForm baseArgs rfl rfl

/-! ### Claim C5 -/

/-- Counterexample to claim C5: the export-page GET is not
status-checked.  In an environment where it returns 500 the run does not
fail with any transport error — it completes successfully. -/
theorem claimC5_counterexample :
    envExportDown.exportPage.status = 500 ∧
      (download_sql_backup envExportDown baseArgs).result =
        Except.ok "out/shop.sql" := by
  decide

/-- Claim C5 (amended): the login-page GET and the login POST fail with
the transport `ValueError` whenever their status is not 200 (hence on
every non-2xx status), but the export-page GET is not status-checked:
the run's outcome is independent of the export-page status. -/
theorem claimC5_theorem (env : Env) (a : Args) (s : Nat) :
    (env.loginPage.status ≠ 200 →
      (download_sql_backup env a).result =
        Except.error (RunError.valueError "Failed to load the login page.")) ∧
    (env.loginPage.status = 200 → env.loginPost.status ≠ 200 →
      (download_sql_backup env a).result =
        Except.error
          (RunError.valueError "Could not log in. Please check your credentials.")) ∧
    download_sql_backup
        { env with exportPage := { status := s, doc := env.exportPage.doc } } a =
      download_sql_backup env a := by
  refine ⟨?_, ?_, ?_⟩
  · intro h1
    rw [run_loginPage_fail env a h1]
  · intro h1 h2
    rw [run_loginPost_fail env a h1 h2]
  · by_cases h1 : env.loginPage.status = 200
    · by_cases h2 : env.loginPost.status = 200
      · cases h3 : is_login_successful env.loginPost.doc
        · rw [run_not_auth
              { env with exportPage := { status := s, doc := env.exportPage.doc } }
              a h1 h2 h3,
            run_not_auth env a h1 h2 h3]
          rfl
        · cases h4 : (exportUrlCandidates env.loginPost.doc).head? with
          | none =>
            rw [run_no_export_link
                { env with exportPage := { status := s, doc := env.exportPage.doc } }
                a h1 h2 h3 h4,
              run_no_export_link env a h1 h2 h3 h4]
            rfl
          | some eu =>
            rw [run_reach_export
                { env with exportPage := { status := s, doc := env.exportPage.doc } }
                a h1 h2 h3 eu h4,
              run_reach_export env a h1 h2 h3 eu h4]
            rfl
      · rw [run_loginPost_fail
            { env with exportPage := { status := s, doc := env.exportPage.doc } }
            a h1 h2,
          run_loginPost_fail env a h1 h2]
        rfl
    · rw [run_loginPage_fail
          { env with exportPage := { status := s, doc := env.exportPage.doc } }
          a h1,
        run_loginPage_fail env a h1]

/-- Witness for the amended claim C5: a 500 on the login page fails the
run with the transport error. -/
theorem claimC5_witness :
    (download_sql_backup envLoginDown baseArgs).result =
      Except.error (RunError.valueError "Failed to load the login page.") :=
  (claimC5_theorem envLoginDown baseArgs 0).1 (by decide)

/-! ### Claim C3 -/

/-- Counterexample to claim C3: on an export page whose dump form hides
an input named `db_select[]`, the submitted selection is the hidden
value, not the available databases minus the (empty) exclusion list. -/
theorem claimC3_counterexample :
    envHiddenDbSelect.exportPage.doc.dbSelectOptions = ["shop", "logs"] ∧
      excludeList baseArgs.exclude_dbs = [] ∧
      ((download_sql_backup envHiddenDbSelect baseArgs).requests[3]?).map
          (fun r => dictGet r.data "db_select[]") =
        some (some (FormValue.one "evil")) ∧
      FormValue.one "evil" ≠ FormValue.many ["shop", "logs"] := by
  decide

/-- Claim C3 (amended): provided no hidden input of the dump form is
itself named `db_select[]`, the databases submitted in the export
request are exactly the available ones minus the excluded ones
(`dbsToDump`, which is by definition the available list filtered by
non-membership in the exclusion list, in the available order); and when
that selection is empty the run still issues the export POST and
surfaces the warning on stderr. -/
theorem claimC3_theorem (env : Env) (a : Args)
    (h0 : env.loginPage.status = 200) (h2 : env.loginPost.status = 200)
    (h3 : is_login_successful env.loginPost.doc = true) (eu : String)
    (h4 : (exportUrlCandidates env.loginPost.doc).head? = some eu)
    (da : String)
    (hda : (dumpFormActions env.exportPage.doc).head? = some da)
    (hno : ∀ p ∈ hiddenPairs (dumpHiddenInputs env.exportPage.doc),
      p.1 ≠ "db_select[]") :
    ∃ r, (download_sql_backup env a).requests[3]? = some r ∧
      dictGet r.data "db_select[]" =
        some (FormValue.many (dbsToDump env.exportPage.doc (excludeList a.exclude_dbs))) ∧
      dbsToDump env.exportPage.doc (excludeList a.exclude_dbs) =
        env.exportPage.doc.dbSelectOptions.filter
          (fun db => !((excludeList a.exclude_dbs).contains db)) ∧
      (dbsToDump env.exportPage.doc (excludeList a.exclude_dbs) = [] →
        noDbWarning env.exportPage.doc.dbSelectOptions ∈
          (download_sql_backup env a).stderr) := by
  rw [run_reach_export env a h0 h2 h3 eu h4]
  have hget : dictGet
      (exportFormData (dbsToDump env.exportPage.doc (excludeList a.exclude_dbs))
        a.compression (dumpHiddenInputs env.exportPage.doc)) "db_select[]" =
      some (FormValue.many (dbsToDump env.exportPage.doc (excludeList a.exclude_dbs))) := by
    unfold exportFormData
    rw [dictGet_applyHidden_of_not_mem _ _ _ hno]
    rfl
  have hwarn : dbsToDump env.exportPage.doc (excludeList a.exclude_dbs) = [] →
      dumpWarnings env a = [noDbWarning env.exportPage.doc.dbSelectOptions] := by
    intro hnil
    unfold dumpWarnings
    rw [hnil]
    rfl
  unfold exportStage
  simp only [hda]
  cases hcd : reMatchFilename (env.filePost.contentDisposition.getD "") <;>
    simp only [hcd]
  · refine ⟨postRequest (env.urljoin a.url da)
      (exportFormData (dbsToDump env.exportPage.doc (excludeList a.exclude_dbs))
        a.compression (dumpHiddenInputs env.exportPage.doc)) true a.timeout,
      by simp, hget, rfl, ?_⟩
    intro hnil
    rw [hwarn hnil]
    simp
  · refine ⟨postRequest (env.urljoin a.url da)
      (exportFormData (dbsToDump env.exportPage.doc (excludeList a.exclude_dbs))
        a.compression (dumpHiddenInputs env.exportPage.doc)) true a.timeout,
      by simp, hget, rfl, ?_⟩
    intro hnil
    rw [hwarn hnil]
    simp

/-- Witness for the amended claim C3: excluding every available database
yields an empty submitted selection, the export POST still happens, and
the warning is printed. -/
theorem claimC3_witness :
    ∃ r, (download_sql_backup happyEnv
        { baseArgs with exclude_dbs := some "shop,logs" }).requests[3]? = some r ∧
      dictGet r.data "db_select[]" =
        some (FormValue.many (dbsToDump happyEnv.exportPage.doc
          (excludeList ({ baseArgs with
            exclude_dbs := some "shop,logs" } : Args).exclude_dbs))) ∧
      dbsToDump happyEnv.exportPage.doc
          (excludeList ({ baseArgs with
            exclude_dbs := some "shop,logs" } : Args).exclude_dbs) =
        happyEnv.exportPage.doc.dbSelectOptions.filter
          (fun db => !((excludeList ({ baseArgs with
            exclude_dbs := some "shop,logs" } : Args).exclude_dbs).contains db)) ∧
      (dbsToDump happyEnv.exportPage.doc
          (excludeList ({ baseArgs with
            exclude_dbs := some "shop,logs" } : Args).exclude_dbs) = [] →
        noDbWarning happyEnv.exportPage.doc.dbSelectOptions ∈
          (download_sql_backup happyEnv
            { baseArgs with exclude_dbs := some "shop,logs" }).stderr) :=
  claimC3_theorem happyEnv { baseArgs with exclude_dbs := some "shop,logs" }
    rfl rfl (by decide) "index.php?route=/server/export&server=1" (by decide)
    "export.php" (by decide) (by decide)

/-! ### Claim C6 -/

theorem length_le_maxLen (files : List String) (s : String) (h : s ∈ files) :
    s.length ≤ maxLen files := by
  induction files with
  | nil => exact absurd h (List.not_mem_nil s)
  | cons f fs ih =>
    unfold maxLen
    rcases List.mem_cons.mp h with rfl | h
    · exact le_max_left _ _
    · exact le_trans (ih h) (le_max_right _ _)

theorem natDecimal_length (n : Nat) (hn : n ≠ 0) :
    (natDecimal n).length = (Nat.digits 10 n).length := by
  unfold natDecimal
  rw [if_neg hn]
  show (((Nat.digits 10 n).map Nat.digitChar).reverse).length = _
  rw [List.length_reverse, List.length_map]

theorem altName_length (b e : String) (n : Nat) :
    (natDecimal n).length ≤ (altName b e n).length := by
  unfold altName
  simp [String.length_append]
  omega

theorem exists_free (files : List String) (b e : String) :
    ∃ d, d ≤ collisionFuel files ∧
      isfile files (altName b e (1 + d)) = false := by
  have hpos : 1 ≤ collisionFuel files := Nat.one_le_pow _ _ (by omega)
  refine ⟨collisionFuel files - 1, Nat.sub_le _ _, ?_⟩
  have h1 : 1 + (collisionFuel files - 1) = collisionFuel files := by omega
  rw [h1]
  cases hc : isfile files (altName b e (collisionFuel files))
  · rfl
  · exfalso
    have hmem : altName b e (collisionFuel files) ∈ files := by
      unfold isfile at hc
      simpa using hc
    have hlen := length_le_maxLen files _ hmem
    have hdl : (natDecimal (collisionFuel files)).length = maxLen files + 2 := by
      rw [natDecimal_length _ (by positivity)]
      unfold collisionFuel
      rw [Nat.digits_len 10 _ (by omega) (by positivity), Nat.log_pow (by omega)]
    have halt := altName_length b e (collisionFuel files)
    omega

theorem collisionLoop_spec (files : List String) (b e : String) :
    ∀ (F n : Nat), (∃ d, d ≤ F ∧ isfile files (altName b e (n + d)) = false) →
    ∃ m, collisionLoop files b e F n = altName b e m ∧ n ≤ m ∧
      isfile files (altName b e m) = false ∧
      ∀ j, n ≤ j → j < m → isfile files (altName b e j) = true := by
  intro F
  induction F with
  | zero =>
    rintro n ⟨d, hd, hfree⟩
    have hd0 : d = 0 := Nat.le_zero.mp hd
    subst hd0
    rw [Nat.add_zero] at hfree
    exact ⟨n, rfl, le_refl n, hfree, fun j hj hjn => absurd hjn (by omega)⟩
  | succ F ih =>
    rintro n ⟨d, hd, hfree⟩
    cases hc : isfile files (altName b e n)
    · refine ⟨n, ?_, le_refl n, hc, fun j hj hjn => absurd hjn (by omega)⟩
      unfold collisionLoop
      rw [hc]
      simp
    · have hd' : ∃ dq, dq ≤ F ∧ isfile files (altName b e ((n + 1) + dq)) = false := by
        cases d with
        | zero =>
          rw [Nat.add_zero] at hfree
          rw [hfree] at hc
          exact absurd hc (by simp)
        | succ dq =>
          refine ⟨dq, by omega, ?_⟩
          have : (n + 1) + dq = n + (dq + 1) := by omega
          rw [this]
          exact hfree
      obtain ⟨m, hm, hnm, hmfree, hmin⟩ := ih (n + 1) hd'
      refine ⟨m, ?_, by omega, hmfree, ?_⟩
      · unfold collisionLoop
        rw [hc]
        simpa using hm
      · intro j hj hjm
        by_cases hje : j = n
        · rw [hje]; exact hc
        · exact hmin j (by omega) hjm

/-- Claim C6: whenever the resolved output path names an existing file
and overwriting is off, collision resolution returns
`base_(N)extension` for the least N in 1, 2, 3, … whose path does not
exist (all smaller indices exist); and with overwriting off the
returned path never names an existing file. -/
theorem claimC6_theorem (files : List String) (out : String) :
    (isfile files out = true →
      ∃ n, 1 ≤ n ∧
        resolveOutputPath files false out =
          altName (splitext out).1 (splitext out).2 n ∧
        isfile files (altName (splitext out).1 (splitext out).2 n) = false ∧
        ∀ m, 1 ≤ m → m < n →
          isfile files (altName (splitext out).1 (splitext out).2 m) = true) ∧
    isfile files (resolveOutputPath files false out) = false := by
  have main : isfile files out = true →
      ∃ n, 1 ≤ n ∧
        resolveOutputPath files false out =
          altName (splitext out).1 (splitext out).2 n ∧
        isfile files (altName (splitext out).1 (splitext out).2 n) = false ∧
        ∀ m, 1 ≤ m → m < n →
          isfile files (altName (splitext out).1 (splitext out).2 m) = true := by
    intro hex
    unfold resolveOutputPath
    rw [hex]
    simp only [Bool.not_false, Bool.and_true, if_true]
    unfold resolveCollision
    obtain ⟨d, hd, hfree⟩ := exists_free files (splitext out).1 (splitext out).2
    obtain ⟨m, hm, h1m, hmfree, hmin⟩ :=
      collisionLoop_spec files (splitext out).1 (splitext out).2
        (collisionFuel files) 1 ⟨d, hd, hfree⟩
    exact ⟨m, h1m, hm, hmfree, fun j hj hjm => hmin j hj hjm⟩
  refine ⟨main, ?_⟩
  cases hex : isfile files out
  · unfold resolveOutputPath
    rw [hex]
    simpa using hex
  · obtain ⟨n, _, heq, hfree, _⟩ := main hex
    rw [heq]
    exact hfree

/-- Witness for claim C6 at a filesystem containing `report.sql` and
`report_(1).sql`. -/
theorem claimC6_witness :
    ∃ n, 1 ≤ n ∧
      resolveOutputPath ["report.sql", "report_(1).sql"] false "report.sql" =
        altName (splitext "report.sql").1 (splitext "report.sql").2 n ∧
      isfile ["report.sql", "report_(1).sql"]
        (altName (splitext "report.sql").1 (splitext "report.sql").2 n) = false ∧
      ∀ m, 1 ≤ m → m < n →
        isfile ["report.sql", "report_(1).sql"]
          (altName (splitext "report.sql").1 (splitext "report.sql").2 m) = true :=
  ( claimC6_theorem ["report.sql", "report_(1).sql"] "report.sql").1 (by decide)

/-! ### Claim C8 -/

theorem strMk_append (a b : List Char) :
    String.mk a ++ String.mk b = String.mk (a ++ b) := rfl

theorem strMk_data (s : String) : String.mk s.data = s := rfl

theorem string_append_assoc (a b c : String) :
    a ++ b ++ c = a ++ (b ++ c) := by
  cases a
  cases b
  cases c
  show String.mk _ = String.mk _
  rw [List.append_assoc]

theorem splitext_append (s : String) :
    (splitext s).1 ++ (splitext s).2 = s := by
  unfold splitext
  show String.mk (splitextData s.data).1 ++ String.mk (splitextData s.data).2 = s
  rw [strMk_append]
  have h : (splitextData s.data).1 ++ (splitextData s.data).2 = s.data := by
    unfold splitextData
    cases hdot : lastIndexOf '.' s.data
    · simp
    · simp only []
      split
      · split
        · simp [List.take_append_drop]
        · simp
      · simp
  rw [h]

theorem resolvedFilename_eq_spec (env : Env) (a : Args) (fn : String) :
    resolvedFilename env a fn =
      specResolvedFilename
        (if a.prepend_date then
          env.strftime (prefixFormatOrDefault a.prefix_format)
        else "")
        a.basename fn := by
  unfold resolvedFilename specResolvedFilename
  cases hb : a.basename with
  | none =>
    cases hp : a.prepend_date <;> simp only [if_pos, if_neg, Bool.false_eq_true]
    · show fn = "" ++ ((splitext fn).1 ++ (splitext fn).2)
      rw [splitext_append]
      cases fn
      rfl
    · show env.strftime (prefixFormatOrDefault a.prefix_format) ++ fn =
        env.strftime (prefixFormatOrDefault a.prefix_format) ++ (splitext fn).1 ++
          (splitext fn).2
      rw [string_append_assoc, splitext_append]
  | some b =>
    cases hp : a.prepend_date <;> simp only [if_pos, if_neg, Bool.false_eq_true]
    · show b ++ (splitext fn).2 = "" ++ b ++ (splitext fn).2
      cases b
      rfl
    · exact (string_append_assoc _ _ _).symm

/-- Claim C8: under no-collision conditions the run returns exactly
`output_directory` joined with: the date prefix (present only when
`prepend_date` is set, produced by `strftime` from the prefix format,
which defaults to `%Y-%m-%d--%H-%M-%S-UTC_` when unset or empty),
followed by the caller basename when given (otherwise the suggested
stem), followed by the suggested filename's original extension. -/
theorem claimC8_theorem (env : Env) (a : Args)
    (h0 : env.loginPage.status = 200) (h2 : env.loginPost.status = 200)
    (h3 : is_login_successful env.loginPost.doc = true) (eu : String)
    (h4 : (exportUrlCandidates env.loginPost.doc).head? = some eu)
    (da : String) (hda : (dumpFormActions env.exportPage.doc).head? = some da)
    (fn : String)
    (hcd : reMatchFilename (env.filePost.contentDisposition.getD "") = some fn)
    (hnc : isfile env.files (pathJoin a.output_directory
      (specResolvedFilename
        (if a.prepend_date then
          env.strftime (prefixFormatOrDefault a.prefix_format)
        else "") a.basename fn)) = false) :
    (download_sql_backup env a).result =
      Except.ok (pathJoin a.output_directory
        (specResolvedFilename
          (if a.prepend_date then
            env.strftime (prefixFormatOrDefault a.prefix_format)
          else "") a.basename fn)) ∧
    prefixFormatOrDefault none = "%Y-%m-%d--%H-%M-%S-UTC_" ∧
    prefixFormatOrDefault (some "") = "%Y-%m-%d--%H-%M-%S-UTC_" := by
  refine ⟨?_, rfl, rfl⟩
  rw [run_reach_export env a h0 h2 h3 eu h4]
  unfold exportStage
  simp only [hda, hcd]
  rw [resolvedFilename_eq_spec]
  unfold resolveOutputPath
  rw [hnc]
  simp

/-- Witness for claim C8: basename override `report` with the date
prefix on; the suggested `shop.sql` contributes only its extension. -/
theorem claimC8_witness :
    (download_sql_backup happyEnv argsC8).result =
      Except.ok (pathJoin argsC8.output_directory
        (specResolvedFilename
          (if argsC8.prepend_date then
            happyEnv.strftime (prefixFormatOrDefault argsC8.prefix_format)
          else "")
          argsC8.basename "shop.sql")) ∧
    prefixFormatOrDefault none = "%Y-%m-%d--%H-%M-%S-UTC_" ∧
    prefixFormatOrDefault (some "") = "%Y-%m-%d--%H-%M-%S-UTC_" :=
  claimC8_theorem happyEnv argsC8
    rfl rfl (by decide) "index.php?route=/server/export&server=1" (by decide)
    "export.php" (by decide) "shop.sql" (by decide) (by decide)

/-! ### Claim C4 -/

theorem takeWhile_append_stop (p : Char → Bool) (xs : List Char) (y : Char)
    (ys : List Char) (hxs : ∀ c ∈ xs, p c = true) (hy : p y = false) :
    (xs ++ y :: ys).takeWhile p = xs := by
  induction xs with
  | nil => simp [List.takeWhile_cons, hy]
  | cons a as ih =>
    have ha := hxs a (List.mem_cons_self _ _)
    simp [List.takeWhile_cons, ha,
      ih (fun c hc => hxs c (List.mem_cons_of_mem _ hc))]

theorem dropWhile_append_stop (p : Char → Bool) (xs : List Char) (y : Char)
    (ys : List Char) (hxs : ∀ c ∈ xs, p c = true) (hy : p y = false) :
    (xs ++ y :: ys).dropWhile p = y :: ys := by
  induction xs with
  | nil => simp [List.dropWhile_cons, hy]
  | cons a as ih =>
    have ha := hxs a (List.mem_cons_self _ _)
    simp [List.dropWhile_cons, ha,
      ih (fun c hc => hxs c (List.mem_cons_of_mem _ hc))]

theorem matchTail_eq_some (l fn : List Char) (h : matchTail l = some fn) :
    ∃ post, l = cdKey ++ (fn ++ '"' :: post) ∧ fn ≠ [] ∧
      (∀ c ∈ fn, c ≠ '"') ∧ dotStarEnd post = true := by
  unfold matchTail at h
  split at h
  case isTrue hpre =>
    obtain ⟨t, ht⟩ := hpre
    rw [← ht, List.drop_left] at h
    unfold matchFrom at h
    split at h
    case h_1 c cs post heq1 heq2 =>
      split at h
      case isTrue hds =>
        have hfn : fn = c :: cs := by
          injection h with hi
          exact hi.symm
        subst hfn
        refine ⟨post, ?_, by simp, ?_, hds⟩
        · rw [← ht]
          have hteq : t = (c :: cs) ++ '"' :: post := by
            conv_lhs => rw [← List.takeWhile_append_dropWhile
              (p := fun ch => ch != '"') (l := t)]
            rw [heq1, heq2]
          rw [hteq]
        · intro x hx
          rw [← heq1] at hx
          have := List.mem_takeWhile_imp hx
          simpa [bne_iff_ne] using this
      case isFalse => exact absurd h (by simp)
    case h_2 => exact absurd h (by simp)
  case isFalse => exact absurd h (by simp)

theorem matchTail_of_decomp (fn post : List Char) (hfn : fn ≠ [])
    (hq : ∀ c ∈ fn, c ≠ '"') (hds : dotStarEnd post = true) :
    matchTail (cdKey ++ (fn ++ '"' :: post)) = some fn := by
  unfold matchTail
  rw [if_pos ⟨fn ++ '"' :: post, rfl⟩]
  rw [List.drop_left]
  unfold matchFrom
  have htw : (fn ++ '"' :: post).takeWhile (fun c => c != '"') = fn :=
    takeWhile_append_stop _ fn '"' post
      (fun c hc => by simpa [bne_iff_ne] using hq c hc) (by simp)
  have hdw : (fn ++ '"' :: post).dropWhile (fun c => c != '"') = '"' :: post :=
    dropWhile_append_stop _ fn '"' post
      (fun c hc => by simpa [bne_iff_ne] using hq c hc) (by simp)
  rw [htw, hdw]
  cases fn with
  | nil => exact absurd rfl hfn
  | cons c cs => simp [hds]

theorem cdScan_some (l fn : List Char) (h : cdScan l = some fn) :
    ∃ pre post, l = pre ++ (cdKey ++ (fn ++ '"' :: post)) ∧ fn ≠ [] ∧
      ∀ c ∈ fn, c ≠ '"' := by
  induction l with
  | nil => simp [cdScan] at h
  | cons c rest ih =>
    unfold cdScan at h
    split at h
    · obtain ⟨post, hd, hfn, hq, _⟩ := matchTail_eq_some _ _ h
      exact ⟨[], post, by simpa using hd, hfn, hq⟩
    · split at h
      case h_1 r heq =>
        have hr : r = fn := by injection h
        subst hr
        obtain ⟨pre, post, hd, hfn, hq⟩ := ih heq
        exact ⟨c :: pre, post, by rw [List.cons_append, ← hd], hfn, hq⟩
      case h_2 heq =>
        obtain ⟨post, hd, hfn, hq, _⟩ := matchTail_eq_some _ _ h
        exact ⟨[], post, by simpa using hd, hfn, hq⟩

theorem matchTail_nil : matchTail [] = none := by
  unfold matchTail
  rw [if_neg]
  intro hpre
  have : cdKey = [] := List.prefix_nil.mp hpre
  simp [cdKey] at this

theorem cdScan_ne_none (l : List Char) (hnl : ∀ c ∈ l, c ≠ '\n')
    (h : ∃ pre s, l = pre ++ s ∧ matchTail s ≠ none) :
    cdScan l ≠ none := by
  induction l with
  | nil =>
    obtain ⟨pre, s, hd, hs⟩ := h
    obtain ⟨hpre, hsnil⟩ := List.append_eq_nil.mp hd.symm
    rw [hsnil] at hs
    exact absurd matchTail_nil hs
  | cons c rest ih =>
    unfold cdScan
    have hcn : ¬(c = '\n') := hnl c (List.mem_cons_self _ _)
    rw [if_neg hcn]
    obtain ⟨pre, s, hd, hs⟩ := h
    cases hsc : cdScan rest
    case some => simp
    case none =>
      simp only []
      cases pre with
      | nil =>
        have hseq : s = c :: rest := by simpa using hd.symm
        rw [hseq] at hs
        simpa using hs
      | cons p ps =>
        exfalso
        have hrest : rest = ps ++ s := by
          rw [List.cons_append] at hd
          simp only [List.cons.injEq] at hd
          exact hd.2
        exact absurd hsc
          (ih (fun x hx => hnl x (List.mem_cons_of_mem _ hx)) ⟨ps, s, hrest, hs⟩)

theorem reMatchFilename_ne_none_iff (s : String)
    (hnl : ∀ c ∈ s.data, c ≠ '\n') :
    reMatchFilename s ≠ none ↔ hasQuotedFilename s := by
  constructor
  · intro h
    unfold reMatchFilename at h
    cases hsc : cdScan s.data with
    | none => rw [hsc] at h; simp at h
    | some fn =>
      obtain ⟨pre, post, hd, hfn, hq⟩ := cdScan_some _ _ hsc
      exact ⟨pre, fn, post, hd, hfn, hq⟩
  · rintro ⟨pre, fn, post, hd, hfn, hq⟩
    have hpostnl : ∀ c ∈ post, c ≠ '\n' := by
      intro x hx
      apply hnl
      rw [hd]
      refine List.mem_append.mpr (Or.inr ?_)
      refine List.mem_append.mpr (Or.inr ?_)
      refine List.mem_append.mpr (Or.inr ?_)
      exact List.mem_cons_of_mem _ hx
    have hds : dotStarEnd post = true := by
      unfold dotStarEnd
      have hall : post.all (fun c => c != '\n') = true := by
        rw [List.all_eq_true]
        intro x hx
        simpa [bne_iff_ne] using hpostnl x hx
      rw [hall]
      rfl
    have hmt := matchTail_of_decomp fn post hfn hq hds
    have hne : matchTail (cdKey ++ (fn ++ '"' :: post)) ≠ none := by
      rw [hmt]
      simp
    have hscan := cdScan_ne_none s.data hnl ⟨pre, _, hd, hne⟩
    unfold reMatchFilename
    cases hsc : cdScan s.data with
    | none => exact absurd hsc hscan
    | some fn2 => simp

/-- Claim C4: after the export form is submitted, the run fails with the
filename error if and only if the `Content-Disposition` header (absent
headers read as the empty string) does not contain a quoted `filename=`
parameter matching the expected pattern; otherwise the quoted filename
is extracted and used as the suggested filename.  Headers are assumed
newline-free, as HTTP headers are. -/
theorem claimC4_theorem (env : Env) (a : Args)
    (h0 : env.loginPage.status = 200) (h2 : env.loginPost.status = 200)
    (h3 : is_login_successful env.loginPost.doc = true) (eu : String)
    (h4 : (exportUrlCandidates env.loginPost.doc).head? = some eu)
    (da : String) (hda : (dumpFormActions env.exportPage.doc).head? = some da)
    (hnl : ∀ c ∈ (env.filePost.contentDisposition.getD "").data, c ≠ '\n') :
    ((download_sql_backup env a).result =
        Except.error (RunError.valueError
          ("Could not determine SQL backup filename from " ++
            env.filePost.contentDisposition.getD "")) ↔
      ¬ hasQuotedFilename (env.filePost.contentDisposition.getD "")) ∧
    ∀ fn, reMatchFilename (env.filePost.contentDisposition.getD "") = some fn →
      a.basename = none → a.prepend_date = false →
      isfile env.files (pathJoin a.output_directory fn) = false →
      (download_sql_backup env a).result =
        Except.ok (pathJoin a.output_directory fn) := by
  rw [run_reach_export env a h0 h2 h3 eu h4]
  unfold exportStage
  simp only [hda]
  cases hcd : reMatchFilename (env.filePost.contentDisposition.getD "") with
  | none =>
    simp only [hcd]
    constructor
    · constructor
      · intro _ hq
        exact ((reMatchFilename_ne_none_iff _ hnl).mpr hq) hcd
      · intro _
        trivial
    · intro fn hfn
      exact absurd hfn (by simp)
  | some fn =>
    simp only [hcd]
    constructor
    · constructor
      · intro habs
        exact absurd habs (by simp)
      · intro hnot
        exfalso
        apply hnot
        refine (reMatchFilename_ne_none_iff _ hnl).mp ?_
        rw [hcd]
        simp
    · intro fn2 hfn2 hb hp hisf
      have hfneq : fn = fn2 := by injection hfn2
      subst hfneq
      have hres : resolvedFilename env a fn = fn := by
        unfold resolvedFilename
        rw [hb, hp]
        rfl
      rw [hres]
      unfold resolveOutputPath
      rw [hisf]
      simp

/-- Witness for claim C4 at the happy environment, whose header is
`attachment; filename="shop.sql"`. -/
theorem claimC4_witness :
    ((download_sql_backup happyEnv baseArgs).result =
        Except.error (RunError.valueError
          ("Could not determine SQL backup filename from " ++
            happyEnv.filePost.contentDisposition.getD "")) ↔
      ¬ hasQuotedFilename (happyEnv.filePost.contentDisposition.getD "")) ∧
    ∀ fn, reMatchFilename (happyEnv.filePost.contentDisposition.getD "") = some fn →
      baseArgs.basename = none → baseArgs.prepend_date = false →
      isfile happyEnv.files (pathJoin baseArgs.output_directory fn) = false →
      (download_sql_backup happyEnv baseArgs).result =
        Except.ok (pathJoin baseArgs.output_directory fn) :=
  claimC4_theorem happyEnv baseArgs
    rfl rfl (by decide) "index.php?route=/server/export&server=1" (by decide)
    "export.php" (by decide) (by decide)

end PmaBackup
